import Mathlib

/-!
Verification of the protwis batch-import commands against their spec.

The two source files embedded here are
`build/management/commands/build_constructs.py` (the construct builder) and
`build/management/commands/build_common.py` (the reference-data loader).
Python values, Django model rows and the per-command control flow are
translated shallowly: rows become structures, querysets become lists,
`get_or_create` becomes an association-list lookup-or-append, raised
exceptions become `Except.error`, and each command is a pure function from
its input files and an initial store to the resulting store plus logged
messages.
-/

set_option autoImplicit false

namespace Protwis

/-- A Python runtime value as used for dictionary keys in the sources.
`build_constructs.create_constructs` builds the `mutations` dict with
string keys (`res_num = m[1:-1]`, a `str` slice) and later tests
membership with the integer `r.sequence_number`.  Python equality between
an `int` and a `str` is always `False`, which the derived `DecidableEq`
on this sum type models exactly. -/
inductive PyVal where
  | int : Int → PyVal
  | str : String → PyVal
deriving DecidableEq

/-- Python dict assignment `d[k] = v`: overwrite the entry if the key is
present, append otherwise. -/
def dictInsert {α : Type} (d : List (PyVal × α)) (k : PyVal) (v : α) :
    List (PyVal × α) :=
  if d.any (fun kv => kv.1 == k) then
    d.map (fun kv => if kv.1 == k then (k, v) else kv)
  else
    d ++ [(k, v)]

/-- Python dict lookup `d[k]` / membership `k in d`. -/
def dictLookup {α : Type} (d : List (PyVal × α)) (k : PyVal) : Option α :=
  (d.find? (fun kv => kv.1 == k)).map Prod.snd

/-- String-keyed dict assignment, used for `split_segments` whose keys are
always segment slugs (strings). -/
def sdictInsert {α : Type} (d : List (String × α)) (k : String) (v : α) :
    List (String × α) :=
  if d.any (fun kv => kv.1 == k) then
    d.map (fun kv => if kv.1 == k then (k, v) else kv)
  else
    d ++ [(k, v)]

/-- String-keyed dict lookup. -/
def sdictLookup {α : Type} (d : List (String × α)) (k : String) : Option α :=
  (d.find? (fun kv => kv.1 == k)).map Prod.snd

/-- Python `s[0]` on a string (a one-character string).  The sources only
index non-empty mutation tokens; on the empty string Python would raise,
which no claim exercises. -/
def pyFirst (s : String) : String := String.mk (s.toList.take 1)

/-- Python `s[-1]` on a string. -/
def pyLast (s : String) : String := String.mk (s.toList.reverse.take 1)

/-- Python `s[1:-1]` on a string. -/
def pyMid (s : String) : String := String.mk ((s.toList.drop 1).dropLast)

/-- Python `list(range(a, b))` over machine integers. -/
def intRange (a b : Int) : List Int :=
  (List.range (b - a).toNat).map (fun (i : Nat) => a + (i : Int))

/-! ## Data model for the construct builder (`build_constructs.py`)

The Django models referenced by the command (`Protein`, `ProteinSegment`,
`Residue`, `ProteinFusion`, `ProteinFusionProtein`) are not part of the
two sources; their fields are taken from the spec's data-model section:
a residue has a 1-based integer sequence position, an amino-acid code, an
owning segment and optional generic-number labels, and a segment has a
slug, a name and a category. -/

/-- A `ProteinSegment` row (slug is the natural key). -/
structure ProteinSegment where
  slug : String
  name : String
  category : String
deriving DecidableEq

/-- A parent `Residue` row as read from the parent conformation. -/
structure ParentResidue where
  sequence_number : Int
  amino_acid : String
  protein_segment : ProteinSegment
  generic_number : Option String
  display_generic_number : Option String
  alternative_generic_numbers : List String
deriving DecidableEq

/-- A parent protein's default-state conformation: entry name, stored
sequence and residue rows (the query in the source returns them in the
model's ordering; the spec states ascending position order, taken as a
hypothesis where a theorem needs it). -/
structure ParentProtein where
  entry_name : String
  sequence : String
  residues : List ParentResidue
deriving DecidableEq

/-- A `Residue` row created for a construct.  `protein_segment` is `none`
when the source never assigns the attribute (a fusion-split residue
strictly between the split bounds); `amino_acid` is `""` when the source
never assigns it (the unreachable mutation-mismatch branch), matching the
Django character-field default. -/
structure ConstructResidue where
  sequence_number : Int
  amino_acid : String
  protein_segment : Option ProteinSegment
  generic_number : Option String
  display_generic_number : Option String
  alternative_generic_numbers : List String
deriving DecidableEq

/-- One entry of the `mutations` dict built from a token
`<wild-type><position><mutant>`. -/
structure MutationInfo where
  wt_res : String
  mut_res : String
  full : String
deriving DecidableEq

/-- One entry of `sd['fusion_proteins']`. -/
structure FusionProteinSpec where
  name : String
  sequence : String
  positions : Int × Int
deriving DecidableEq

/-- One construct definition file (`sd`), after YAML parsing (parsing is
out of scope per the spec).  `protein` is optional because the source
checks `'protein' not in sd`; the other keys are accessed
unconditionally. -/
structure ConstructFile where
  protein : Option String
  name : String
  truncations : List (Int × Int)
  mutations : List String
  fusion_proteins : List FusionProteinSpec
deriving DecidableEq

/-- One entry of the `split_segments` dict. -/
structure SplitInfo where
  start_seq : Int
  start_segment : ProteinSegment
  end_seq : Int
  end_segment : ProteinSegment
deriving DecidableEq

/-- A `ProteinFusionProtein` row (the fusion placement join record). -/
structure FusionRecord where
  fusion_name : String
  segment_before : ProteinSegment
  segment_after : ProteinSegment
deriving DecidableEq

/-- The stores the construct builder reads and writes:
parent conformations (read-only), the `ProteinSegment` table and the
`ProteinFusion` table (name, sequence). -/
structure ConstructDB where
  parents : List ParentProtein
  segments : List ProteinSegment
  fusions : List (String × String)
deriving DecidableEq

/-- `truncations` list: `for t in sd['truncations']: truncations +=
list(range(t[0], t[1]+1))`. -/
def expandTruncations (ts : List (Int × Int)) : List Int :=
  ts.foldl (fun acc t => acc ++ intRange t.1 (t.2 + 1)) []

/-- `mutations` dict: keyed by the string `m[1:-1]`, value holding
`m[0]`, `m[-1]` and the full token. -/
def parseMutations (ms : List String) : List (PyVal × MutationInfo) :=
  ms.foldl
    (fun d m => dictInsert d (PyVal.str (pyMid m)) ⟨pyFirst m, pyLast m, m⟩) []

/-- `ProteinSegment.objects.get_or_create(slug=..., defaults={'name': ...,
'category': ...})`. -/
def segGetOrCreate (store : List ProteinSegment) (slug nm cat : String) :
    ProteinSegment × List ProteinSegment :=
  match store.find? (fun s => s.slug == slug) with
  | some s => (s, store)
  | none => (⟨slug, nm, cat⟩, store ++ [⟨slug, nm, cat⟩])

/-- `ProteinFusion.objects.get_or_create(name=..., defaults={'sequence':
...})`. -/
def fusionGetOrCreate (store : List (String × String)) (nm seq : String) :
    List (String × String) :=
  match store.find? (fun f => f.1 == nm) with
  | some _ => store
  | none => store ++ [(nm, seq)]

/-- `Residue.objects.get(protein_conformation=ppc, sequence_number=n)`:
raises `DoesNotExist` when no row matches. -/
def residueGet (residues : List ParentResidue) (n : Int) :
    Except String ParentResidue :=
  match residues.find? (fun pr => pr.sequence_number == n) with
  | some pr => Except.ok pr
  | none => Except.error "Residue matching query does not exist."

/-- State threaded through the `for fp in sd['fusion_proteins']` loop.
`segment_before` and `segment_after` model the Python local variables,
which are unbound (`none`) until the same-segment branch first assigns
them and persist across loop iterations. -/
structure FusionState where
  segments : List ProteinSegment
  fusions : List (String × String)
  split_segments : List (String × SplitInfo)
  records : List FusionRecord
  segment_before : Option ProteinSegment
  segment_after : Option ProteinSegment
deriving DecidableEq

/-- One iteration of the fusion-protein loop (`build_constructs.py`
lines 136-171): look up the residues at the declared endpoint positions,
split the segment when both endpoints share a segment, get-or-create the
fusion, then create the `ProteinFusionProtein` row from the
`segment_before`/`segment_after` locals - raising the Python
`UnboundLocalError` when no prior iteration assigned them. -/
def processFusion (parentResidues : List ParentResidue) (st : FusionState)
    (fp : FusionProteinSpec) : Except String FusionState :=
  match residueGet parentResidues fp.positions.1 with
  | Except.error e => Except.error e
  | Except.ok fp_start =>
    match residueGet parentResidues fp.positions.2 with
    | Except.error e => Except.error e
    | Except.ok fp_end =>
      let st :=
        if fp_start.protein_segment == fp_end.protein_segment then
          let r1 := segGetOrCreate st.segments (fp_start.protein_segment.slug ++ "_1")
            fp_start.protein_segment.name fp_start.protein_segment.category
          let r2 := segGetOrCreate r1.2 (fp_start.protein_segment.slug ++ "_2")
            fp_start.protein_segment.name fp_start.protein_segment.category
          { st with
            segments := r2.2
            split_segments := sdictInsert st.split_segments
              fp_start.protein_segment.slug
              ⟨fp.positions.1, r1.1, fp.positions.2, r2.1⟩
            segment_before := some r1.1
            segment_after := some r2.1 }
        else st
      let fusions := fusionGetOrCreate st.fusions fp.name fp.sequence
      match st.segment_before, st.segment_after with
      | some sb, some sa =>
        Except.ok { st with
          fusions := fusions
          records := st.records ++ [⟨fp.name, sb, sa⟩] }
      | _, _ =>
        Except.error "local variable referenced before assignment"

/-- The fusion-protein loop body over the remaining entries: an exception
in one entry propagates. -/
def runFusionList (parentResidues : List ParentResidue) :
    FusionState → List FusionProteinSpec → Except String FusionState
  | st, [] => Except.ok st
  | st, fp :: fps =>
    match processFusion parentResidues st fp with
    | Except.error e => Except.error e
    | Except.ok st1 => runFusionList parentResidues st1 fps

/-- The whole fusion-protein loop over `sd['fusion_proteins']`, starting
with empty `split_segments` and unbound locals. -/
def runFusions (parentResidues : List ParentResidue)
    (segments : List ProteinSegment) (fusions : List (String × String))
    (fps : List FusionProteinSpec) : Except String FusionState :=
  runFusionList parentResidues ⟨segments, fusions, [], [], none, none⟩ fps

/-- The resolved segment (`build_constructs.py` lines 185-194): a
residue of a split segment goes to the recorded start segment when its
position is at most the fusion start, to the end segment when at least
the fusion end, and is otherwise left with no segment assigned. -/
def residueSegment (split_segments : List (String × SplitInfo))
    (pr : ParentResidue) : Option ProteinSegment :=
  match sdictLookup split_segments pr.protein_segment.slug with
  | some info =>
    if pr.sequence_number ≤ info.start_seq then some info.start_segment
    else if pr.sequence_number ≥ info.end_seq then some info.end_segment
    else none
  | none => some pr.protein_segment

/-- The resolved amino acid (`build_constructs.py` lines 196-205): the
`mutations` lookup uses the integer key `PyVal.int`; a wild-type match
substitutes the mutant, a mismatch leaves the field at its `""` default,
no match keeps the parent amino acid. -/
def residueAminoAcid (mutations : List (PyVal × MutationInfo))
    (pr : ParentResidue) : String :=
  match dictLookup mutations (PyVal.int pr.sequence_number) with
  | some mi => if mi.wt_res == pr.amino_acid then mi.mut_res else ""
  | none => pr.amino_acid

/-- The construct residue built from one parent residue
(`build_constructs.py` lines 178-205): `none` when the position is
truncated, otherwise the position, resolved amino acid, resolved segment
and the generic-number annotations carried over from the parent. -/
def residueFor (truncations : List Int)
    (split_segments : List (String × SplitInfo))
    (mutations : List (PyVal × MutationInfo)) (pr : ParentResidue) :
    Option ConstructResidue :=
  if truncations.contains pr.sequence_number then none
  else
    some ⟨pr.sequence_number, residueAminoAcid mutations pr,
      residueSegment split_segments pr, pr.generic_number,
      pr.display_generic_number, pr.alternative_generic_numbers⟩

/-- The error logged by one parent residue, or `none`: only the
mutation-mismatch branch logs. -/
def residueLog (truncations : List Int)
    (mutations : List (PyVal × MutationInfo)) (constructName : String)
    (pr : ParentResidue) : Option String :=
  if truncations.contains pr.sequence_number then none
  else
    match dictLookup mutations (PyVal.int pr.sequence_number) with
    | some mi =>
      if mi.wt_res == pr.amino_acid then none
      else some ("Mutation " ++ mi.full ++ " in construct " ++ constructName
        ++ " does not match wild-type sequence")
    | none => none

/-- State of the residue loop: created rows, the running
`updated_sequence`, and logged errors. -/
structure ResidueLoopState where
  residues : List ConstructResidue
  updated_sequence : String
  log : List String
deriving DecidableEq

/-- One iteration of the residue loop (`for pr in prs`). -/
def processResidue (truncations : List Int)
    (split_segments : List (String × SplitInfo))
    (mutations : List (PyVal × MutationInfo)) (constructName : String)
    (st : ResidueLoopState) (pr : ParentResidue) : ResidueLoopState :=
  match residueFor truncations split_segments mutations pr with
  | none => st
  | some r =>
    { residues := st.residues ++ [r]
      updated_sequence := st.updated_sequence ++ r.amino_acid
      log := st.log ++ (residueLog truncations mutations constructName pr).toList }

/-- The whole residue loop. -/
def runResidueLoop (truncations : List Int)
    (split_segments : List (String × SplitInfo))
    (mutations : List (PyVal × MutationInfo)) (constructName : String)
    (prs : List ParentResidue) : ResidueLoopState :=
  prs.foldl (processResidue truncations split_segments mutations constructName)
    ⟨[], "", []⟩

/-- The construct `Protein` row finally stored: its `sequence` field is
overwritten with `updated_sequence` after the loop. -/
structure ConstructProtein where
  name : String
  parent_entry : String
  sequence : String
deriving DecidableEq

/-- Everything one successfully processed construct file produces. -/
structure ConstructResult where
  construct : ConstructProtein
  residues : List ConstructResidue
  fusion_records : List FusionRecord
  log : List String
deriving DecidableEq

/-- Outcome of one construct file: skipped by an explicit `continue`
(missing protein key / parent not found), or fully processed. -/
inductive FileOutcome where
  | skipped : List String → FileOutcome
  | done : ConstructResult → FileOutcome
deriving DecidableEq

/-- Processing of one construct file inside `create_constructs`
(`build_constructs.py` lines 66-220).  The `continue` paths return
`FileOutcome.skipped`; exceptions that the source does not catch inside
the loop (a fusion endpoint residue not found, the unbound
`segment_before` local) surface as `Except.error`.  Record saves are
modelled as succeeding (storage is a black box per the spec); text
utilities (`slugify`, `strip_tags`) are out of scope and the construct is
identified by its declared name. -/
def processConstructFile (db : ConstructDB) (sd : ConstructFile) :
    Except String (ConstructDB × FileOutcome) :=
  match sd.protein with
  | none =>
    Except.ok (db, FileOutcome.skipped
      ["Protein not specified for construct, skipping"])
  | some parentName =>
    match db.parents.find? (fun pp => pp.entry_name == parentName) with
    | none =>
      Except.ok (db, FileOutcome.skipped
        ["Parent protein " ++ parentName ++ " for construct " ++ sd.name
          ++ " not found, aborting!"])
    | some ppc =>
      match runFusions ppc.residues db.segments db.fusions sd.fusion_proteins with
      | Except.error e => Except.error e
      | Except.ok fst =>
        let loop := runResidueLoop (expandTruncations sd.truncations)
          fst.split_segments (parseMutations sd.mutations) sd.name ppc.residues
        Except.ok ({ db with segments := fst.segments, fusions := fst.fusions },
          FileOutcome.done
            { construct := ⟨sd.name, ppc.entry_name, loop.updated_sequence⟩
              residues := loop.residues
              fusion_records := fst.records
              log := loop.log })

/-- The file loop of `create_constructs`: files are processed in order;
an uncaught exception in one file propagates out of the loop, so the
remaining files are never processed.  Returns the final stores, the
outcomes of the files that were processed, and the escaped exception
message if any. -/
def create_constructs (db : ConstructDB) :
    List ConstructFile → ConstructDB × List FileOutcome × Option String
  | [] => (db, [], none)
  | sd :: rest =>
    match processConstructFile db sd with
    | Except.error e => (db, [], some e)
    | Except.ok (db1, oc) =>
      let r := create_constructs db1 rest
      (r.1, oc :: r.2.1, r.2.2)

/-- `Command.handle` (`build_constructs.py` lines 30-44): the single call
to `create_constructs` is wrapped in `try/except`, so an escaped
exception is logged at job level and the command itself never raises. -/
def handle (db : ConstructDB) (files : List ConstructFile) :
    ConstructDB × List FileOutcome × List String :=
  let r := create_constructs db files
  (r.1, r.2.1, (r.2.2).toList)

/-! ## Data model for the reference-data loader (`build_common.py`)

Only the catalogs the claims reference are embedded: web resources
(`create_resources`), documentation and pages (`create_documentation`,
`create_pages`) and anomalies (`create_anomalies`). -/

/-- A `WebResource` row (slug is the natural key). -/
structure WebResource where
  slug : String
  name : String
  url : String
deriving DecidableEq

/-- State of one `create_resources` run: the store, the slugs of records
created during this run, and logged errors. -/
structure ResourcesState where
  store : List WebResource
  created : List String
  log : List String
deriving DecidableEq

/-- One iteration of the `create_resources` row loop (`build_common.py`
lines 60-77): build the defaults from `split_row[1]` and `split_row[2]`,
then `get_or_create` on `slug=split_row[0]`.  A row with fewer than three
tokens raises `IndexError`, caught by the bare `except`, whose handler
reads `split_row[0]` - on an empty row that read itself raises and the
exception escapes the catalog. -/
def processResourceRow (st : ResourcesState) (row : List String) :
    Except String ResourcesState :=
  if 3 ≤ row.length then
    match st.store.find? (fun w => w.slug == row.getD 0 "") with
    | some _ => Except.ok st
    | none =>
      Except.ok { st with
        store := st.store ++ [⟨row.getD 0 "", row.getD 1 "", row.getD 2 ""⟩]
        created := st.created ++ [row.getD 0 ""] }
  else if 1 ≤ row.length then
    Except.ok { st with
      log := st.log ++ ["Failed creating resource " ++ row.getD 0 ""] }
  else
    Except.error "IndexError: list index out of range"

/-- The `create_resources` row loop over the remaining rows: an escaped
exception aborts the catalog. -/
def resourceRowLoop : ResourcesState → List (List String) → Except String ResourcesState
  | st, [] => Except.ok st
  | st, row :: rows =>
    match processResourceRow st row with
    | Except.error e => Except.error e
    | Except.ok st1 => resourceRowLoop st1 rows

/-- `create_resources`: the row loop over the tokenized source lines,
starting from the given store with nothing created or logged yet. -/
def create_resources (store : List WebResource) (rows : List (List String)) :
    Except String ResourcesState :=
  resourceRowLoop ⟨store, [], []⟩ rows

/-- Whether a web resource with the given slug exists in the store. -/
def slugIn (store : List WebResource) (s : String) : Bool :=
  (store.find? (fun w => w.slug == s)).isSome

/-- A `Documentation` row.  `get_or_create` looks it up by title,
description and image together (no defaults); `html` starts at the
character-field default `""` on creation. -/
structure Documentation where
  title : String
  description : String
  image : String
  html : String
deriving DecidableEq

/-- One documentation source: the YAML metadata plus the sibling `.html`
file's raw content. -/
structure DocFile where
  title : String
  description : String
  image : String
  htmlContent : String
deriving DecidableEq

/-- The lookup predicate of the documentation `get_or_create`. -/
def docKeyMatch (f : DocFile) (d : Documentation) : Bool :=
  d.title == f.title && d.description == f.description && d.image == f.image

/-- `doc.html = h.read(); doc.save()`: overwrite the `html` field of the
first row matching the predicate. -/
def setDocHtmlFirst (p : Documentation → Bool) (h : String) :
    List Documentation → List Documentation
  | [] => []
  | d :: ds => if p d then { d with html := h } :: ds else d :: setDocHtmlFirst p h ds

/-- One iteration of the `create_documentation` file loop
(`build_common.py` lines 126-144): `get_or_create` on (title,
description, image), then unconditionally overwrite `html` from the
sibling file and save. -/
def processDocFile (store : List Documentation) (f : DocFile) :
    List Documentation :=
  if store.any (docKeyMatch f) then
    setDocHtmlFirst (docKeyMatch f) f.htmlContent store
  else
    store ++ [⟨f.title, f.description, f.image, f.htmlContent⟩]

/-- `create_documentation` over its directory listing. -/
def create_documentation (store : List Documentation) (files : List DocFile) :
    List Documentation :=
  files.foldl processDocFile store

/-- A `Pages` row: `get_or_create` looks it up by title alone. -/
structure PageRecord where
  title : String
  html : String
deriving DecidableEq

/-- One pages source: YAML title plus sibling `.html` content. -/
structure PageFile where
  title : String
  htmlContent : String
deriving DecidableEq

/-- Overwrite the `html` of the first page row with the given title. -/
def setPageHtmlFirst (t h : String) : List PageRecord → List PageRecord
  | [] => []
  | d :: ds => if d.title == t then ⟨d.title, h⟩ :: ds else d :: setPageHtmlFirst t h ds

/-- One iteration of the `create_pages` file loop (`build_common.py`
lines 154-172): `get_or_create` on the title, then unconditionally
overwrite `html` from the sibling file and save. -/
def processPageFile (store : List PageRecord) (f : PageFile) :
    List PageRecord :=
  if store.any (fun d => d.title == f.title) then
    setPageHtmlFirst f.title f.htmlContent store
  else
    store ++ [⟨f.title, f.htmlContent⟩]

/-- `create_pages` over its directory listing. -/
def create_pages (store : List PageRecord) (files : List PageFile) :
    List PageRecord :=
  files.foldl processPageFile store

/-- A `ResidueGenericNumber` row: label, numbering-scheme slug and
segment slug. -/
structure GenericNumber where
  label : String
  scheme : String
  protein_segment : String
deriving DecidableEq

/-- One rule mapping in an anomaly YAML file.  `negative` is accessed
unconditionally by the source (`if rule['negative']:`), so its absence
raises `KeyError`. -/
structure AnomalyRuleYaml where
  generic_number : Option String
  amino_acid : Option String
  negative : Option Bool
deriving DecidableEq

/-- One rule-set mapping in an anomaly YAML file. -/
structure AnomalyRuleSetYaml where
  exclusive : Option Bool
  rules : Option (List AnomalyRuleYaml)
deriving DecidableEq

/-- One anomaly YAML file. -/
structure AnomalyFile where
  anomaly_type : Option String
  protein_segment : Option String
  generic_number : Option String
  rule_sets : Option (List AnomalyRuleSetYaml)
deriving DecidableEq

/-- Python truthiness of `'k' in d and d['k']` for a string value. -/
def strTruthy : Option String → Bool
  | some s => !(s == "")
  | none => false

/-- A `ProteinAnomalyRuleSet` row.  It has no natural key:
`objects.create` is used, so every run inserts a fresh row; `id` models
the auto-increment primary key. -/
structure RuleSetRow where
  id : Nat
  anomaly_type : String
  anomaly_gn : GenericNumber
  exclusive : Bool
deriving DecidableEq

/-- A `ProteinAnomalyRule` row, likewise created unconditionally. -/
structure RuleRow where
  rule_set_id : Nat
  generic_number : String
  amino_acid : String
  negative : Bool
deriving DecidableEq

/-- The stores `create_anomalies` reads and writes. -/
structure AnomalyDB where
  anomaly_types : List String
  segments : List ProteinSegment
  schemes : List String
  generic_numbers : List GenericNumber
  anomalies : List (String × GenericNumber)
  rule_sets : List RuleSetRow
  rules : List RuleRow
deriving DecidableEq

/-- State threaded through the `create_anomalies` file loop: the stores,
the Python local `ps` (unbound until a file with a resolvable
`protein_segment` assigns it, persisting across files), and the log. -/
structure AnomalyState where
  db : AnomalyDB
  ps : Option ProteinSegment
  log : List String
deriving DecidableEq

/-- One iteration of the inner rule loop (`build_common.py` lines
349-368): check the expected keys, read `rule['negative']` (KeyError on
absence), `get_or_create` the rule generic number on (label, segment,
scheme), then `objects.create` the rule row. -/
def processRule (defaultScheme : String) (psv : ProteinSegment)
    (parsId : Nat) (st : AnomalyDB × List String) (rule : AnomalyRuleYaml) :
    Except String (AnomalyDB × List String) :=
  if strTruthy rule.generic_number && strTruthy rule.amino_acid then
    match rule.negative with
    | none => Except.error "KeyError: negative"
    | some neg =>
      let lbl := rule.generic_number.getD ""
      let db := st.1
      let found := db.generic_numbers.find? (fun g => g.label == lbl &&
        g.protein_segment == psv.slug && g.scheme == defaultScheme)
      let pargn : GenericNumber := found.getD ⟨lbl, defaultScheme, psv.slug⟩
      let gns := match found with
        | some _ => db.generic_numbers
        | none => db.generic_numbers ++ [pargn]
      Except.ok ({ db with
        generic_numbers := gns
        rules := db.rules ++ [⟨parsId, pargn.label, rule.amino_acid.getD "", neg⟩] },
        st.2)
  else
    Except.ok (st.1, st.2 ++ ["Missing values for rule"])

/-- One iteration of the rule-set loop (`build_common.py` lines
339-368): when the `rules` key is present and non-empty, a fresh
`ProteinAnomalyRuleSet` row is created with `objects.create` (never
looked up), then the rules are processed. -/
def processRuleSet (defaultScheme : String) (psv : ProteinSegment)
    (atSlug : String) (gn : GenericNumber) (st : AnomalyDB × List String)
    (rs : AnomalyRuleSetYaml) : Except String (AnomalyDB × List String) :=
  let exclusive := rs.exclusive.getD false
  match rs.rules with
  | none => Except.ok st
  | some rules =>
    if rules.isEmpty then Except.ok st
    else
      let db := st.1
      let parsId := db.rule_sets.length
      let db := { db with rule_sets := db.rule_sets ++ [⟨parsId, atSlug, gn, exclusive⟩] }
      rules.foldlM (processRule defaultScheme psv parsId) (db, st.2)

/-- One iteration of the `create_anomalies` file loop (`build_common.py`
lines 292-368).  Notable source behavior carried over: a missing segment
hits the misspelled `except ProteinSegment.DoesNotExists` clause, whose
evaluation raises `AttributeError`; the generic-number `get_or_create`
evaluates the local `ps` in its defaults even on a hit, raising
`NameError` when no earlier file bound it; a missing default numbering
scheme raises out of the uncaught `objects.get`. -/
def processAnomalyFile (defaultScheme : String) (st : AnomalyState)
    (ano : AnomalyFile) : Except String AnomalyState :=
  if strTruthy ano.anomaly_type then
    let atSlug := ano.anomaly_type.getD ""
    let db1 := { st.db with anomaly_types :=
      if st.db.anomaly_types.contains atSlug then st.db.anomaly_types
      else st.db.anomaly_types ++ [atSlug] }
    do
    let ps ←
      if strTruthy ano.protein_segment then
        match db1.segments.find? (fun s => s.slug == ano.protein_segment.getD "") with
        | some s => Except.ok (some s)
        | none =>
          Except.error "AttributeError: ProteinSegment has no attribute DoesNotExists"
      else Except.ok st.ps
    if strTruthy ano.generic_number then
      if !(db1.schemes.contains defaultScheme) then
        Except.error "ResidueNumberingScheme matching query does not exist."
      else
        match ps with
        | none => Except.error "NameError: name ps is not defined"
        | some psv =>
          let lbl := ano.generic_number.getD ""
          let found := db1.generic_numbers.find? (fun g => g.label == lbl &&
            g.scheme == defaultScheme)
          let gn : GenericNumber := found.getD ⟨lbl, defaultScheme, psv.slug⟩
          let gns := match found with
            | some _ => db1.generic_numbers
            | none => db1.generic_numbers ++ [gn]
          let db2 := { db1 with generic_numbers := gns }
          let db3 := { db2 with anomalies :=
            if db2.anomalies.contains (atSlug, gn) then db2.anomalies
            else db2.anomalies ++ [(atSlug, gn)] }
          match ano.rule_sets with
          | none =>
            Except.ok
              { db := db3, ps := some psv
                log := st.log ++ ["No rule sets specified, skipping"] }
          | some rss => do
            let r ← rss.foldlM (processRuleSet defaultScheme psv atSlug gn)
              (db3, st.log)
            Except.ok { db := r.1, ps := some psv, log := r.2 }
    else
      Except.ok
        { db := db1, ps := ps
          log := st.log ++ ["Generic number not specified, skipping"] }
  else
    Except.ok { st with log := st.log ++ ["Anomaly type not specified, skipping"] }

/-- `create_anomalies` over its directory listing; the `ps` local starts
unbound. -/
def create_anomalies (defaultScheme : String) (db : AnomalyDB)
    (files : List AnomalyFile) : Except String AnomalyState :=
  files.foldlM (processAnomalyFile defaultScheme) ⟨db, none, []⟩

/-! ## Derived views and concrete inputs used by the theorems -/

deriving instance DecidableEq for Except

/-- The construct result of one file, when processing completed. -/
def fileResult : Except String (ConstructDB × FileOutcome) → Option ConstructResult
  | Except.ok (_, FileOutcome.done r) => some r
  | _ => none

/-- Concatenation of the amino acids of a residue list, in list order. -/
def joinAA : List ConstructResidue → String
  | [] => ""
  | r :: rs => r.amino_acid ++ joinAA rs

/-- A helix segment used by the concrete scenarios. -/
def segTM1 : ProteinSegment := ⟨"TM1", "TM1", "helix"⟩

/-- A loop segment used by the concrete scenarios. -/
def segICL2 : ProteinSegment := ⟨"ICL2", "ICL2", "loop"⟩

/-- A parent residue with no generic-number annotations. -/
def plainResidue (n : Int) (aa : String) (seg : ProteinSegment) : ParentResidue :=
  ⟨n, aa, seg, none, none, []⟩

/-- The spec scenario parent: sequence `MAVQK`, positions 1-5. -/
def scenarioParent : ParentProtein :=
  ⟨"adrb2_human", "MAVQK",
    [plainResidue 1 "M" segTM1, plainResidue 2 "A" segTM1, plainResidue 3 "V" segTM1,
      plainResidue 4 "Q" segTM1, plainResidue 5 "K" segTM1]⟩

/-- Store holding the spec scenario parent. -/
def scenarioDB : ConstructDB := ⟨[scenarioParent], [segTM1], []⟩

/-- The spec scenario construct file: truncation `[1,1]`, mutation
`A2V`. -/
def scenarioSD : ConstructFile :=
  ⟨some "adrb2_human", "construct-a", [(1, 1)], ["A2V"], []⟩

/-- Parent whose residue at position 2 is `G`, not the `A` declared by
the mutation `A2V`. -/
def mismatchParent : ParentProtein :=
  ⟨"opsd_human", "MG", [plainResidue 1 "M" segTM1, plainResidue 2 "G" segTM1]⟩

/-- Store holding the mismatch parent. -/
def mismatchDB : ConstructDB := ⟨[mismatchParent], [segTM1], []⟩

/-- Construct file declaring the mismatching mutation `A2V`. -/
def mismatchSD : ConstructFile := ⟨some "opsd_human", "construct-b", [], ["A2V"], []⟩

/-- Construct file with a fusion inserted at positions `[2,4]`, both
endpoints inside `TM1` of the scenario parent. -/
def fusionSD : ConstructFile :=
  ⟨some "adrb2_human", "construct-c", [], [], [⟨"T4L", "AAA", (2, 4)⟩]⟩

/-- Parent spanning two segments: positions 1-3 in `TM1`, 4-6 in
`ICL2`. -/
def twoSegParent : ParentProtein :=
  ⟨"drd2_human", "MAVQKL",
    [plainResidue 1 "M" segTM1, plainResidue 2 "A" segTM1, plainResidue 3 "V" segTM1,
      plainResidue 4 "Q" segICL2, plainResidue 5 "K" segICL2, plainResidue 6 "L" segICL2]⟩

/-- Store holding the two-segment parent. -/
def twoSegDB : ConstructDB := ⟨[twoSegParent], [segTM1, segICL2], []⟩

/-- Construct file with a fusion whose endpoints (positions 2 and 5) lie
in two different segments. -/
def twoSegSD : ConstructFile :=
  ⟨some "drd2_human", "construct-d", [], [], [⟨"T4L", "AAA", (2, 5)⟩]⟩

/-- Construct file whose fusion endpoints name positions (10, 11) that do
not exist in the scenario parent, so the residue lookup raises. -/
def badFusionSD : ConstructFile :=
  ⟨some "adrb2_human", "construct-e", [], [], [⟨"T4L", "AAA", (10, 11)⟩]⟩

/-- A documentation store holding one record. -/
def exDocStore : List Documentation := [⟨"About", "desc", "img", "old-body"⟩]

/-- A documentation source whose metadata matches the stored record but
whose sibling html file differs. -/
def exDocFile : DocFile := ⟨"About", "desc", "img", "new-body"⟩

/-- Anomaly stores before the first loader run: one segment, the default
numbering scheme, nothing else. -/
def exAnomalyDB : AnomalyDB := ⟨[], [segTM1], ["gpcrdb"], [], [], [], []⟩

/-- A well-formed anomaly source file with one rule set holding one
rule. -/
def exAnomalyFile : AnomalyFile :=
  ⟨some "bulge", some "TM1", some "1x50",
    some [⟨none, some [⟨some "1x50", some "P", some false⟩]⟩]⟩

/-- Rule-set and rule counts after running the anomaly loader twice on
the same unchanged file (the second run starts from the first run's
stores). -/
def anomaliesTwice : Except String (Nat × Nat) :=
  match create_anomalies "gpcrdb" exAnomalyDB [exAnomalyFile] with
  | Except.ok st1 =>
    (create_anomalies "gpcrdb" st1.db [exAnomalyFile]).map
      (fun st => (st.db.rule_sets.length, st.db.rules.length))
  | Except.error e => Except.error e

/-- Parent for the small witness scenarios: sequence `MA`. -/
def wParent : ParentProtein :=
  ⟨"ghsr_human", "MA", [plainResidue 1 "M" segTM1, plainResidue 2 "A" segTM1]⟩

/-- Store holding the witness parent. -/
def wDB : ConstructDB := ⟨[wParent], [segTM1], []⟩

/-- Witness construct file: truncation `[1,1]` only. -/
def wSD : ConstructFile := ⟨some "ghsr_human", "construct-w", [(1, 1)], [], []⟩

/-- The construct result the witness file produces. -/
def wRES : ConstructResult :=
  ⟨⟨"construct-w", "ghsr_human", "A"⟩,
    [⟨2, "A", some segTM1, none, none, []⟩], [], []⟩

/-- The `_1` segment split off `TM1`. -/
def segTM1a : ProteinSegment := ⟨"TM1_1", "TM1", "helix"⟩

/-- The `_2` segment split off `TM1`. -/
def segTM1b : ProteinSegment := ⟨"TM1_2", "TM1", "helix"⟩

/-- The construct result the fusion file `fusionSD` produces on the
scenario store. -/
def fusionRES : ConstructResult :=
  ⟨⟨"construct-c", "adrb2_human", "MAVQK"⟩,
    [⟨1, "M", some segTM1a, none, none, []⟩, ⟨2, "A", some segTM1a, none, none, []⟩,
      ⟨3, "V", none, none, none, []⟩, ⟨4, "Q", some segTM1b, none, none, []⟩,
      ⟨5, "K", some segTM1b, none, none, []⟩],
    [⟨"T4L", segTM1a, segTM1b⟩], []⟩

/-- The stores after processing `fusionSD`: the two split segments and
the fusion row were added. -/
def fusionDB2 : ConstructDB :=
  ⟨[scenarioParent], [segTM1, segTM1a, segTM1b], [("T4L", "AAA")]⟩

/-- A construct file naming a parent that is not in the store. -/
def missingParentSD : ConstructFile :=
  ⟨some "xxxx_human", "construct-m", [], [], []⟩

/-! ## Lemmas: the mutation lookup is dead code -/

lemma dictInsert_str_keys {α : Type} (d : List (PyVal × α)) (s : String) (v : α)
    (h : ∀ kv ∈ d, ∃ t, kv.1 = PyVal.str t) :
    ∀ kv ∈ dictInsert d (PyVal.str s) v, ∃ t, kv.1 = PyVal.str t := by
  intro kv hkv
  unfold dictInsert at hkv
  split at hkv
  · rcases List.mem_map.1 hkv with ⟨kv0, hkv0, rfl⟩
    split
    · exact ⟨s, rfl⟩
    · exact h kv0 hkv0
  · rcases List.mem_append.1 hkv with h1 | h1
    · exact h kv h1
    · rcases List.mem_singleton.1 h1 with rfl
      exact ⟨s, rfl⟩

lemma dictLookup_int_eq_none {α : Type} (d : List (PyVal × α)) (n : Int)
    (h : ∀ kv ∈ d, ∃ t, kv.1 = PyVal.str t) :
    dictLookup d (PyVal.int n) = none := by
  have hf : d.find? (fun kv => kv.1 == PyVal.int n) = none := by
    rw [List.find?_eq_none]
    intro kv hkv
    rcases h kv hkv with ⟨t, ht⟩
    simp [ht]
  simp [dictLookup, hf]

lemma parseMutations_str_keys (ms : List String) :
    ∀ kv ∈ parseMutations ms, ∃ t, kv.1 = PyVal.str t := by
  unfold parseMutations
  have H : ∀ (ms : List String) (d : List (PyVal × MutationInfo)),
      (∀ kv ∈ d, ∃ t, kv.1 = PyVal.str t) →
      ∀ kv ∈ ms.foldl
        (fun d m => dictInsert d (PyVal.str (pyMid m)) ⟨pyFirst m, pyLast m, m⟩) d,
        ∃ t, kv.1 = PyVal.str t := by
    intro ms
    induction ms with
    | nil => intro d hd; simpa using hd
    | cons m ms ih =>
      intro d hd
      simp only [List.foldl_cons]
      exact ih _ (dictInsert_str_keys d (pyMid m) ⟨pyFirst m, pyLast m, m⟩ hd)
  exact H ms [] (by intro kv hkv; cases hkv)

lemma parseMutations_int_lookup (ms : List String) (n : Int) :
    dictLookup (parseMutations ms) (PyVal.int n) = none :=
  dictLookup_int_eq_none _ n (parseMutations_str_keys ms)

lemma residueLog_eq_none (t : List Int) (ms : List String) (c : String)
    (pr : ParentResidue) :
    residueLog t (parseMutations ms) c pr = none := by
  unfold residueLog
  rw [parseMutations_int_lookup]
  split <;> rfl

/-! ## Lemmas: characterization of the residue loop -/

lemma residueFor_none_iff (t : List Int) (s : List (String × SplitInfo))
    (m : List (PyVal × MutationInfo)) (pr : ParentResidue) :
    residueFor t s m pr = none ↔ t.contains pr.sequence_number = true := by
  unfold residueFor
  split <;> simp_all

lemma residueFor_some_elim {t : List Int} {s : List (String × SplitInfo)}
    {m : List (PyVal × MutationInfo)} {pr : ParentResidue}
    {r : ConstructResidue} (h : residueFor t s m pr = some r) :
    t.contains pr.sequence_number = false
    ∧ r.sequence_number = pr.sequence_number
    ∧ r.amino_acid = residueAminoAcid m pr
    ∧ r.protein_segment = residueSegment s pr := by
  unfold residueFor at h
  split at h
  · cases h
  · injection h with h
    subst h
    simp_all

lemma residueLog_none_of_contains (t : List Int)
    (m : List (PyVal × MutationInfo)) (c : String) (pr : ParentResidue)
    (h : t.contains pr.sequence_number = true) :
    residueLog t m c pr = none := by
  unfold residueLog
  rw [h]
  simp

lemma runResidueLoop_foldl (t : List Int) (s : List (String × SplitInfo))
    (m : List (PyVal × MutationInfo)) (c : String) :
    ∀ (prs : List ParentResidue) (st : ResidueLoopState),
      prs.foldl (processResidue t s m c) st =
        ⟨st.residues ++ prs.filterMap (residueFor t s m),
          st.updated_sequence ++ joinAA (prs.filterMap (residueFor t s m)),
          st.log ++ prs.filterMap (residueLog t m c)⟩ := by
  intro prs
  induction prs with
  | nil => intro st; simp [joinAA]
  | cons pr prs ih =>
    intro st
    rw [List.foldl_cons]
    cases hr : residueFor t s m pr with
    | none =>
      have hc := (residueFor_none_iff t s m pr).1 hr
      have hstep : processResidue t s m c st pr = st := by
        unfold processResidue; rw [hr]
      rw [hstep, ih st, List.filterMap_cons_none hr,
        List.filterMap_cons_none (residueLog_none_of_contains t m c pr hc)]
    | some r =>
      have hstep : processResidue t s m c st pr =
          ⟨st.residues ++ [r], st.updated_sequence ++ r.amino_acid,
            st.log ++ (residueLog t m c pr).toList⟩ := by
        unfold processResidue; rw [hr]
      rw [hstep, ih _, List.filterMap_cons_some hr]
      cases hl : residueLog t m c pr with
      | none =>
        rw [List.filterMap_cons_none hl]
        simp [joinAA, String.append_assoc]
      | some msg =>
        rw [List.filterMap_cons_some hl]
        simp [joinAA, String.append_assoc]

lemma runResidueLoop_eq (t : List Int) (s : List (String × SplitInfo))
    (m : List (PyVal × MutationInfo)) (c : String)
    (prs : List ParentResidue) :
    runResidueLoop t s m c prs =
      ⟨prs.filterMap (residueFor t s m), joinAA (prs.filterMap (residueFor t s m)),
        prs.filterMap (residueLog t m c)⟩ := by
  unfold runResidueLoop
  rw [runResidueLoop_foldl]
  simp

lemma mem_intRange {a b p : Int} : p ∈ intRange a b ↔ a ≤ p ∧ p < b := by
  unfold intRange
  simp only [List.mem_map, List.mem_range]
  constructor
  · rintro ⟨i, hi, rfl⟩
    omega
  · intro h
    exact ⟨(p - a).toNat, by omega, by omega⟩

lemma mem_foldl_append {α β : Type} (f : β → List α) (ts : List β) :
    ∀ (acc : List α) (p : α),
      p ∈ ts.foldl (fun a t => a ++ f t) acc ↔ p ∈ acc ∨ ∃ t ∈ ts, p ∈ f t := by
  induction ts with
  | nil => intro acc p; simp
  | cons t ts ih =>
    intro acc p
    rw [List.foldl_cons, ih, List.mem_append]
    constructor
    · rintro ((h | h) | ⟨u, hu, hp⟩)
      · exact Or.inl h
      · exact Or.inr ⟨t, List.mem_cons_self t ts, h⟩
      · exact Or.inr ⟨u, List.mem_cons_of_mem t hu, hp⟩
    · rintro (h | ⟨u, hu, hp⟩)
      · exact Or.inl (Or.inl h)
      · rcases List.mem_cons.1 hu with h2 | h2
        · subst h2; exact Or.inl (Or.inr hp)
        · exact Or.inr ⟨u, h2, hp⟩

lemma mem_expandTruncations {ts : List (Int × Int)} {p : Int} :
    p ∈ expandTruncations ts ↔ ∃ t ∈ ts, t.1 ≤ p ∧ p ≤ t.2 := by
  unfold expandTruncations
  rw [mem_foldl_append]
  simp only [List.not_mem_nil, false_or]
  refine exists_congr fun t => ?_
  constructor
  · rintro ⟨h1, h2⟩
    rcases mem_intRange.1 h2 with ⟨h3, h4⟩
    exact ⟨h1, h3, by omega⟩
  · rintro ⟨h1, h2, h3⟩
    exact ⟨h1, mem_intRange.2 ⟨h2, by omega⟩⟩

lemma filterMap_residueFor_map_seq (t : List Int)
    (s : List (String × SplitInfo)) (m : List (PyVal × MutationInfo)) :
    ∀ prs : List ParentResidue,
      (prs.filterMap (residueFor t s m)).map (fun r => r.sequence_number)
        = (prs.filter (fun pr => !(t.contains pr.sequence_number))).map
            (fun pr => pr.sequence_number) := by
  intro prs
  induction prs with
  | nil => rfl
  | cons pr prs ih =>
    cases hc : t.contains pr.sequence_number with
    | true =>
      have hmem : pr.sequence_number ∈ t := by simpa using hc
      have hr : residueFor t s m pr = none := (residueFor_none_iff t s m pr).2 hc
      rw [List.filterMap_cons_none hr, List.filter_cons]
      simp [hc, hmem, ih]
    | false =>
      have hmem : pr.sequence_number ∉ t := by simpa using hc
      have hr : residueFor t s m pr =
          some ⟨pr.sequence_number, residueAminoAcid m pr, residueSegment s pr,
            pr.generic_number, pr.display_generic_number,
            pr.alternative_generic_numbers⟩ := by
        unfold residueFor; rw [hc]; rfl
      rw [List.filterMap_cons_some hr, List.filter_cons]
      simp [hc, hmem, ih]

/-- Elimination of a successful file run: when the parent resolves and
processing returns a completed construct, the fusion loop succeeded and
the result's components are the residue-loop characterizations. -/
lemma processConstructFile_ok_elim {db : ConstructDB} {sd : ConstructFile}
    {pn : String} {ppc : ParentProtein} {db' : ConstructDB}
    {res : ConstructResult}
    (h1 : sd.protein = some pn)
    (h2 : db.parents.find? (fun pp => pp.entry_name == pn) = some ppc)
    (h8 : processConstructFile db sd = Except.ok (db', FileOutcome.done res)) :
    ∃ fst, runFusions ppc.residues db.segments db.fusions sd.fusion_proteins
        = Except.ok fst
      ∧ res.residues = ppc.residues.filterMap
          (residueFor (expandTruncations sd.truncations) fst.split_segments
            (parseMutations sd.mutations))
      ∧ res.construct.sequence = joinAA res.residues
      ∧ res.log = ppc.residues.filterMap
          (residueLog (expandTruncations sd.truncations)
            (parseMutations sd.mutations) sd.name)
      ∧ res.fusion_records = fst.records := by
  unfold processConstructFile at h8
  rw [h1] at h8
  simp only [h2] at h8
  cases hf : runFusions ppc.residues db.segments db.fusions sd.fusion_proteins with
  | error e => rw [hf] at h8; cases h8
  | ok fst =>
    rw [hf] at h8
    simp only [Except.ok.injEq, Prod.mk.injEq] at h8
    rcases h8 with ⟨hdb, hres⟩
    injection hres with hres
    subst hres
    refine ⟨fst, rfl, ?_, ?_, ?_, rfl⟩
    · simp [runResidueLoop_eq]
    · simp [runResidueLoop_eq]
    · simp [runResidueLoop_eq]

/-! ## Theorems for the claims -/

/-- Claim C1: for every declared mutation token whose wild-type matches
the parent residue at a non-truncated position, the derived sequence at
that position should equal the declared mutant.  The code refutes this:
the mutations dict is keyed by the string slice `m[1:-1]` while the
residue-loop membership test uses the integer sequence number, so the
lookup never hits and no mutation is ever applied.  On the spec's own
scenario (parent `MAVQK`, truncation `[1,1]`, matching mutation `A2V`)
the derived sequence is `AVQK`, not the specified `VVQK`. -/
theorem mutations_never_applied :
    (∀ (ms : List String) (n : Int),
      dictLookup (parseMutations ms) (PyVal.int n) = none)
    ∧ (fileResult (processConstructFile scenarioDB scenarioSD)).map
        (fun r => r.construct.sequence) = some "AVQK"
    ∧ (fileResult (processConstructFile scenarioDB scenarioSD)).map
        (fun r => r.construct.sequence) ≠ some "VVQK" :=
  ⟨fun ms n => parseMutations_int_lookup ms n, by decide, by decide⟩

/-- Claim C5: on a wild-type mismatch an error should be logged, the
parent residue kept, and processing continue.  The residue is indeed kept
and processing continues, but no error is ever logged: the mismatch
branch is unreachable for the same string-versus-integer key reason, as
the general first conjunct shows; on the concrete mismatch scenario
(parent `G` at position 2, declared mutation `A2V`) the log is empty. -/
theorem mutation_mismatch_never_logged :
    (∀ (t : List Int) (ms : List String) (c : String) (pr : ParentResidue),
      residueLog t (parseMutations ms) c pr = none)
    ∧ (fileResult (processConstructFile mismatchDB mismatchSD)).map
        (fun r => r.log) = some []
    ∧ (fileResult (processConstructFile mismatchDB mismatchSD)).map
        (fun r => r.residues.map (fun x => (x.sequence_number, x.amino_acid)))
        = some [(1, "M"), (2, "G")] :=
  ⟨residueLog_eq_none, by decide, by decide⟩

/-- Claim C7: a fusion whose endpoints lie in two different original
segments should be recorded as a fusion placement record without a
segment split.  The code refutes this: the placement-record creation
reads the `segment_before`/`segment_after` locals that only the
same-segment branch assigns, so the first such fusion raises Python's
`UnboundLocalError` and nothing is recorded; the whole file (and, per the
file loop, all following files) is aborted. -/
theorem fusion_spanning_segments_raises_unbound_local :
    ((residueGet twoSegParent.residues 2).map (fun r => r.protein_segment)
      ≠ (residueGet twoSegParent.residues 5).map (fun r => r.protein_segment))
    ∧ processConstructFile twoSegDB twoSegSD
        = Except.error "local variable referenced before assignment" :=
  ⟨by decide, by decide⟩

/-- Counterexample to claim C2: with a fusion at positions `[2,4]` fully
inside `TM1` of the `MAVQK` parent, the claim says no residue at a
position strictly between 2 and 4 is materialized; the code materializes
the residue at position 3 (with no segment assigned). -/
theorem fusion_interior_residue_materialized :
    (fileResult (processConstructFile scenarioDB fusionSD)).map
      (fun r => r.residues.map
        (fun x => (x.sequence_number, x.protein_segment.map ProteinSegment.slug)))
      = some [(1, some "TM1_1"), (2, some "TM1_1"), (3, none),
        (4, some "TM1_2"), (5, some "TM1_2")]
    ∧ (fileResult (processConstructFile scenarioDB fusionSD)).map
        (fun r => r.residues.any
          (fun x => 2 < x.sequence_number && x.sequence_number < 4))
        = some true :=
  ⟨by decide, by decide⟩

/-- Counterexample to claim C3: the anomaly catalog is a reference-loader
catalog, yet re-running it on the same unchanged file creates a second
`ProteinAnomalyRuleSet` row and a second `ProteinAnomalyRule` row: they
are inserted with `objects.create`, not get-or-create. -/
theorem anomaly_rerun_duplicates_rule_sets :
    (create_anomalies "gpcrdb" exAnomalyDB [exAnomalyFile]).map
      (fun st => (st.db.rule_sets.length, st.db.rules.length)) = Except.ok (1, 1)
    ∧ anomaliesTwice = Except.ok (2, 2) :=
  ⟨by decide, by decide⟩

/-- Counterexample to claim C4: a documentation record whose natural key
already exists is not left untouched - its `html` field is overwritten
with the sibling html file's content. -/
theorem documentation_html_overwritten :
    exDocStore.any (docKeyMatch exDocFile) = true
    ∧ processDocFile exDocStore exDocFile ≠ exDocStore
    ∧ processDocFile exDocStore exDocFile = [⟨"About", "desc", "img", "new-body"⟩] :=
  ⟨by decide, by decide, by decide⟩

/-- Counterexample to claim C6: the first file's fusion lookup raises (no
residue at position 10), and the exception escapes the file loop: the
second, perfectly processable file yields no outcome at all, against the
claim that the builder moves on to the next file after any failure. -/
theorem file_exception_aborts_remaining_files :
    create_constructs scenarioDB [badFusionSD, scenarioSD]
      = (scenarioDB, [], some "Residue matching query does not exist.")
    ∧ (fileResult (processConstructFile scenarioDB scenarioSD)).isSome = true :=
  ⟨by decide, by decide⟩

/-- Claim C8: for every construct whose residue loop completes, the
sequence string stored on the construct record equals the concatenation,
in ascending position order, of the amino acids of the construct's
residue rows.  Both conjuncts hold: the stored sequence is the
concatenation of the created rows in creation order, and (given the
parent query's ascending ordering) the created rows are strictly
ascending in position, so creation order is ascending position order. -/
theorem construct_sequence_matches_residues
    {db : ConstructDB} {sd : ConstructFile} {pn : String} {ppc : ParentProtein}
    {db' : ConstructDB} {res : ConstructResult}
    (h1 : sd.protein = some pn)
    (h2 : db.parents.find? (fun pp => pp.entry_name == pn) = some ppc)
    (hsorted : ppc.residues.Pairwise
      (fun x y => x.sequence_number < y.sequence_number))
    (h8 : processConstructFile db sd = Except.ok (db', FileOutcome.done res)) :
    res.construct.sequence = joinAA res.residues
    ∧ res.residues.Pairwise (fun x y => x.sequence_number < y.sequence_number) := by
  rcases processConstructFile_ok_elim h1 h2 h8 with ⟨fst, _, hres, hseq, _, _⟩
  refine ⟨hseq, ?_⟩
  rw [hres]
  refine List.Pairwise.filterMap _ ?_ hsorted
  intro x y hxy r hr r2 hr2
  have e1 := (residueFor_some_elim (Option.mem_def.1 hr)).2.1
  have e2 := (residueFor_some_elim (Option.mem_def.1 hr2)).2.1
  rw [e1, e2]
  exact hxy

/-- Witness for claim C8 at the concrete witness construct. -/
theorem construct_sequence_matches_residues_witness :
    wRES.construct.sequence = joinAA wRES.residues
    ∧ wRES.residues.Pairwise (fun x y => x.sequence_number < y.sequence_number) :=
  @construct_sequence_matches_residues wDB wSD "ghsr_human" wParent wDB wRES
    rfl (by decide) (by decide) (by decide)

/-- Claim C9: no residue of a construct carries a position inside any
declared inclusive truncation range - confirmed: the residue loop skips
exactly the expanded truncation positions. -/
theorem truncated_positions_absent
    {db : ConstructDB} {sd : ConstructFile} {pn : String} {ppc : ParentProtein}
    {db' : ConstructDB} {res : ConstructResult}
    (h1 : sd.protein = some pn)
    (h2 : db.parents.find? (fun pp => pp.entry_name == pn) = some ppc)
    (h8 : processConstructFile db sd = Except.ok (db', FileOutcome.done res)) :
    ∀ t ∈ sd.truncations, ∀ p : Int, t.1 ≤ p → p ≤ t.2 →
      ∀ r ∈ res.residues, r.sequence_number ≠ p := by
  rcases processConstructFile_ok_elim h1 h2 h8 with ⟨fst, _, hres, _, _, _⟩
  intro t ht p hp1 hp2 r hr hrp
  rw [hres] at hr
  rcases List.mem_filterMap.1 hr with ⟨pr, hpr, hsome⟩
  rcases residueFor_some_elim hsome with ⟨hcont, hseqeq, _, _⟩
  have hpp : pr.sequence_number = p := by rw [← hseqeq, hrp]
  have hmem : pr.sequence_number ∈ expandTruncations sd.truncations :=
    mem_expandTruncations.2 ⟨t, ht, by omega, by omega⟩
  have hnot : pr.sequence_number ∉ expandTruncations sd.truncations := by
    simpa using hcont
  exact hnot hmem

/-- Witness for claim C9: the witness construct truncates `[1,1]` and its
single residue row (position 2) is not at position 1. -/
theorem truncated_positions_absent_witness :
    (⟨2, "A", some segTM1, none, none, []⟩ : ConstructResidue).sequence_number ≠ 1 :=
  @truncated_positions_absent wDB wSD "ghsr_human" wParent wDB wRES
    rfl (by decide) (by decide) (1, 1) (by decide) 1 (by decide) (by decide)
    ⟨2, "A", some segTM1, none, none, []⟩ (by decide)

/-- Claim C10: residue rows keep the parent's sequence numbers
unchanged - confirmed: the positions of the created rows are exactly the
non-truncated parent positions, in order, with no renumbering (so
truncation leaves gaps rather than a compacted range). -/
theorem residue_positions_preserved
    {db : ConstructDB} {sd : ConstructFile} {pn : String} {ppc : ParentProtein}
    {db' : ConstructDB} {res : ConstructResult}
    (h1 : sd.protein = some pn)
    (h2 : db.parents.find? (fun pp => pp.entry_name == pn) = some ppc)
    (h8 : processConstructFile db sd = Except.ok (db', FileOutcome.done res)) :
    res.residues.map (fun r => r.sequence_number)
      = (ppc.residues.filter
          (fun pr => !((expandTruncations sd.truncations).contains
            pr.sequence_number))).map (fun pr => pr.sequence_number) := by
  rcases processConstructFile_ok_elim h1 h2 h8 with ⟨fst, _, hres, _, _, _⟩
  rw [hres, filterMap_residueFor_map_seq]

/-- Witness for claim C10 at the concrete witness construct. -/
theorem residue_positions_preserved_witness :
    wRES.residues.map (fun r => r.sequence_number)
      = (wParent.residues.filter
          (fun pr => !((expandTruncations wSD.truncations).contains
            pr.sequence_number))).map (fun pr => pr.sequence_number) :=
  @residue_positions_preserved wDB wSD "ghsr_human" wParent wDB wRES
    rfl (by decide) (by decide)

lemma segGetOrCreate_slug (store : List ProteinSegment) (slug nm cat : String) :
    (segGetOrCreate store slug nm cat).1.slug = slug := by
  unfold segGetOrCreate
  cases hfind : store.find? (fun s => s.slug == slug) with
  | none => rfl
  | some s =>
    have h := List.find?_some hfind
    simp only [beq_iff_eq] at h
    exact h

lemma residueSegment_single {info : SplitInfo} {pr : ParentResidue}
    {slug : String} (h : pr.protein_segment.slug = slug) :
    residueSegment [(slug, info)] pr =
      if pr.sequence_number ≤ info.start_seq then some info.start_segment
      else if pr.sequence_number ≥ info.end_seq then some info.end_segment
      else none := by
  unfold residueSegment sdictLookup
  have hfind : List.find? (fun kv : String × SplitInfo => kv.1 == slug)
      [(slug, info)] = some (slug, info) :=
    List.find?_cons_of_pos _ (by simp)
  rw [h, hfind]
  rfl

lemma runFusions_single_same_segment
    {prs : List ParentResidue} {segments : List ProteinSegment}
    {fusions : List (String × String)} {fp : FusionProteinSpec}
    {rs re0 : ParentResidue}
    (h5 : residueGet prs fp.positions.1 = Except.ok rs)
    (h6 : residueGet prs fp.positions.2 = Except.ok re0)
    (h7 : rs.protein_segment = re0.protein_segment) :
    ∃ fst, runFusions prs segments fusions [fp] = Except.ok fst
      ∧ ∃ info : SplitInfo,
          fst.split_segments = [(rs.protein_segment.slug, info)]
          ∧ info.start_seq = fp.positions.1
          ∧ info.end_seq = fp.positions.2
          ∧ info.start_segment.slug = rs.protein_segment.slug ++ "_1"
          ∧ info.end_segment.slug = rs.protein_segment.slug ++ "_2" := by
  have hbeq : (rs.protein_segment == re0.protein_segment) = true := by
    rw [h7]; exact beq_self_eq_true _
  let seg1 := segGetOrCreate segments (rs.protein_segment.slug ++ "_1")
    rs.protein_segment.name rs.protein_segment.category
  let seg2 := segGetOrCreate seg1.2 (rs.protein_segment.slug ++ "_2")
    rs.protein_segment.name rs.protein_segment.category
  let big : FusionState := ⟨seg2.2, fusionGetOrCreate fusions fp.name fp.sequence,
    [(rs.protein_segment.slug, ⟨fp.positions.1, seg1.1, fp.positions.2, seg2.1⟩)],
    [⟨fp.name, seg1.1, seg2.1⟩], some seg1.1, some seg2.1⟩
  have hpf : processFusion prs ⟨segments, fusions, [], [], none, none⟩ fp
      = Except.ok big := by
    unfold processFusion
    rw [h5, h6]
    simp only [hbeq, if_true]
    rfl
  have hrun : runFusions prs segments fusions [fp] = Except.ok big := by
    unfold runFusions
    simp only [runFusionList]
    rw [hpf]
  exact ⟨big, hrun, ⟨fp.positions.1, seg1.1, fp.positions.2, seg2.1⟩, rfl, rfl, rfl,
    segGetOrCreate_slug _ _ _ _, segGetOrCreate_slug _ _ _ _⟩

/-- Claim C2 (amended): for a fusion with positions `[s, e]` whose
endpoint residues lie in the same original segment, non-truncated
residues of that segment at position at most `s` land in the `_1` split
segment and those at position at least `e` land in the `_2` split
segment; but - against the claim's last conjunct - residues at positions
strictly between `s` and `e` are still materialized as residue rows of
the construct, with no segment assigned. -/
theorem fusion_split_segment_assignment
    {db : ConstructDB} {sd : ConstructFile} {pn : String} {ppc : ParentProtein}
    {db' : ConstructDB} {res : ConstructResult} {fp : FusionProteinSpec}
    {rs re0 : ParentResidue}
    (h1 : sd.protein = some pn)
    (h2 : db.parents.find? (fun pp => pp.entry_name == pn) = some ppc)
    (h3 : sd.fusion_proteins = [fp])
    (h5 : residueGet ppc.residues fp.positions.1 = Except.ok rs)
    (h6 : residueGet ppc.residues fp.positions.2 = Except.ok re0)
    (h7 : rs.protein_segment = re0.protein_segment)
    (hse : fp.positions.1 < fp.positions.2)
    (h8 : processConstructFile db sd = Except.ok (db', FileOutcome.done res)) :
    ∀ pr ∈ ppc.residues, pr.protein_segment = rs.protein_segment →
      pr.sequence_number ∉ expandTruncations sd.truncations →
      ((pr.sequence_number ≤ fp.positions.1 →
          ∃ r ∈ res.residues, r.sequence_number = pr.sequence_number
            ∧ r.protein_segment.map ProteinSegment.slug
                = some (rs.protein_segment.slug ++ "_1"))
        ∧ (fp.positions.2 ≤ pr.sequence_number →
          ∃ r ∈ res.residues, r.sequence_number = pr.sequence_number
            ∧ r.protein_segment.map ProteinSegment.slug
                = some (rs.protein_segment.slug ++ "_2"))
        ∧ (fp.positions.1 < pr.sequence_number →
            pr.sequence_number < fp.positions.2 →
          ∃ r ∈ res.residues, r.sequence_number = pr.sequence_number
            ∧ r.protein_segment = none)) := by
  rcases processConstructFile_ok_elim h1 h2 h8 with ⟨fst, hf, hres, _, _, _⟩
  rw [h3] at hf
  rcases runFusions_single_same_segment h5 h6 h7 with
    ⟨fst2, hf2, info, hsplit, hs1, hs2, hs3, hs4⟩
  rw [hf] at hf2
  injection hf2 with hfst
  subst hfst
  intro pr hpr hseg hnt
  have hcont : (expandTruncations sd.truncations).contains pr.sequence_number
      = false := by simpa using hnt
  have hsome : residueFor (expandTruncations sd.truncations) fst.split_segments
      (parseMutations sd.mutations) pr
      = some ⟨pr.sequence_number,
          residueAminoAcid (parseMutations sd.mutations) pr,
          residueSegment fst.split_segments pr, pr.generic_number,
          pr.display_generic_number, pr.alternative_generic_numbers⟩ := by
    unfold residueFor
    rw [hcont]
    rfl
  have hmem : (⟨pr.sequence_number,
      residueAminoAcid (parseMutations sd.mutations) pr,
      residueSegment fst.split_segments pr, pr.generic_number,
      pr.display_generic_number, pr.alternative_generic_numbers⟩ : ConstructResidue)
      ∈ res.residues := by
    rw [hres]
    exact List.mem_filterMap.2 ⟨pr, hpr, hsome⟩
  have hsegres : residueSegment fst.split_segments pr =
      if pr.sequence_number ≤ info.start_seq then some info.start_segment
      else if pr.sequence_number ≥ info.end_seq then some info.end_segment
      else none := by
    rw [hsplit]
    exact residueSegment_single (by rw [hseg])
  refine ⟨?_, ?_, ?_⟩
  · intro hb
    refine ⟨_, hmem, rfl, ?_⟩
    rw [hsegres, if_pos (by omega)]
    simp [hs3]
  · intro hb
    refine ⟨_, hmem, rfl, ?_⟩
    rw [hsegres, if_neg (by omega), if_pos (by omega)]
    simp [hs4]
  · intro hb1 hb2
    refine ⟨_, hmem, rfl, ?_⟩
    rw [hsegres, if_neg (by omega), if_neg (by omega)]

/-- Witness for the amended claim C2: in the fusion scenario (positions
`[2,4]` inside `TM1`), the parent residue at position 3 is strictly
between the bounds and yields a residue row with no segment assigned. -/
theorem fusion_split_segment_assignment_witness :
    ∃ r ∈ fusionRES.residues,
      r.sequence_number = (plainResidue 3 "V" segTM1).sequence_number
        ∧ r.protein_segment = none :=
  (@fusion_split_segment_assignment scenarioDB fusionSD "adrb2_human"
    scenarioParent fusionDB2 fusionRES ⟨"T4L", "AAA", (2, 4)⟩
    (plainResidue 2 "A" segTM1) (plainResidue 4 "Q" segTM1)
    rfl (by decide) rfl (by decide) (by decide) (by decide) (by decide)
    (by decide) (plainResidue 3 "V" segTM1) (by decide) (by decide)
    (by decide)).2.2 (by decide) (by decide)

/-- Claim C6 (amended): a file whose parent protein cannot be resolved is
logged and skipped and the builder moves on (first conjunct, with the
skip outcome made explicit; the missing-protein-key and
construct-save-failure paths behave the same way in the source); a file
that is skipped with such an outcome leaves the loop processing the
remaining files (second conjunct); but any other exception raised inside
a file - a fusion endpoint lookup failure, the unbound
`segment_before` local - escapes the loop, so the remaining files are
not processed and the exception is only caught and logged at the job
level (third conjunct). -/
theorem construct_file_failure_handling :
    (∀ (db : ConstructDB) (sd : ConstructFile) (pn : String),
      sd.protein = some pn →
      db.parents.find? (fun pp => pp.entry_name == pn) = none →
      processConstructFile db sd = Except.ok (db, FileOutcome.skipped
        ["Parent protein " ++ pn ++ " for construct " ++ sd.name
          ++ " not found, aborting!"]))
    ∧ (∀ (db db1 : ConstructDB) (sd : ConstructFile)
        (rest : List ConstructFile) (l : List String),
      processConstructFile db sd = Except.ok (db1, FileOutcome.skipped l) →
      create_constructs db (sd :: rest) =
        ((create_constructs db1 rest).1,
          FileOutcome.skipped l :: (create_constructs db1 rest).2.1,
          (create_constructs db1 rest).2.2))
    ∧ (∀ (db : ConstructDB) (sd : ConstructFile)
        (rest : List ConstructFile) (e : String),
      processConstructFile db sd = Except.error e →
      create_constructs db (sd :: rest) = (db, [], some e)) := by
  refine ⟨?_, ?_, ?_⟩
  · intro db sd pn h1 h2
    unfold processConstructFile
    rw [h1]
    simp [h2]
  · intro db db1 sd rest l h
    simp only [create_constructs]
    rw [h]
  · intro db sd rest e h
    simp only [create_constructs]
    rw [h]

/-- Witness for the amended claim C6: a missing parent is skipped with
the logged message, and a file whose fusion endpoint lookup raises makes
the loop stop with the escaped exception. -/
theorem construct_file_failure_handling_witness :
    processConstructFile wDB missingParentSD = Except.ok (wDB,
      FileOutcome.skipped ["Parent protein " ++ "xxxx_human" ++ " for construct "
        ++ missingParentSD.name ++ " not found, aborting!"])
    ∧ create_constructs scenarioDB [badFusionSD]
        = (scenarioDB, [], some "Residue matching query does not exist.") :=
  ⟨construct_file_failure_handling.1 wDB missingParentSD "xxxx_human" rfl
      (by decide),
    construct_file_failure_handling.2.2 scenarioDB badFusionSD []
      "Residue matching query does not exist." (by decide)⟩

lemma slugIn_append_left (store l : List WebResource) (s : String)
    (h : slugIn store s = true) : slugIn (store ++ l) s = true := by
  unfold slugIn at h ⊢
  rw [List.find?_append]
  cases hfind : store.find? (fun w => w.slug == s) with
  | none => rw [hfind] at h; cases h
  | some w => rfl

lemma slugIn_append_singleton (store : List WebResource) (w : WebResource)
    (s : String) (hw : (w.slug == s) = true) :
    slugIn (store ++ [w]) s = true := by
  unfold slugIn
  rw [List.find?_append]
  cases hfind : store.find? (fun w => w.slug == s) with
  | none =>
    rw [@List.find?_cons_of_pos WebResource (fun x => x.slug == s) w [] hw]
    rfl
  | some x => rfl

lemma processResourceRow_ok_facts {st st' : ResourcesState} {row : List String}
    (h : processResourceRow st row = Except.ok st') :
    1 ≤ row.length
    ∧ (∀ s, slugIn st.store s = true → slugIn st'.store s = true)
    ∧ (3 ≤ row.length → slugIn st'.store (row.getD 0 "") = true) := by
  unfold processResourceRow at h
  split at h
  · rename_i h3
    cases hfind : st.store.find? (fun w => w.slug == row.getD 0 "") with
    | some w =>
      rw [hfind] at h
      injection h with h
      subst h
      refine ⟨by omega, fun s hs => hs, fun _ => ?_⟩
      unfold slugIn
      rw [hfind]
      rfl
    | none =>
      rw [hfind] at h
      injection h with h
      subst h
      refine ⟨by omega, ?_, ?_⟩
      · intro s hs
        exact slugIn_append_left _ _ _ hs
      · intro _
        exact slugIn_append_singleton _ _ _ (by simp)
  · split at h
    · rename_i h3 h1
      injection h with h
      subst h
      exact ⟨h1, fun s hs => hs, fun hc => absurd hc h3⟩
    · cases h

lemma resourceRowLoop_ok_facts :
    ∀ (rows : List (List String)) (st st' : ResourcesState),
      resourceRowLoop st rows = Except.ok st' →
      (∀ s, slugIn st.store s = true → slugIn st'.store s = true)
      ∧ (∀ row ∈ rows, 1 ≤ row.length
          ∧ (3 ≤ row.length → slugIn st'.store (row.getD 0 "") = true)) := by
  intro rows
  induction rows with
  | nil =>
    intro st st' h
    injection h with h
    subst h
    exact ⟨fun s hs => hs, by simp⟩
  | cons row rows ih =>
    intro st st' h
    cases hstep : processResourceRow st row with
    | error e =>
      have hx : resourceRowLoop st (row :: rows) = Except.error e := by
        simp only [resourceRowLoop]
        rw [hstep]
      rw [hx] at h
      cases h
    | ok st1 =>
      have hgo : resourceRowLoop st (row :: rows) = resourceRowLoop st1 rows := by
        simp only [resourceRowLoop]
        rw [hstep]
      rw [hgo] at h
      rcases ih st1 st' h with ⟨mono, rows_facts⟩
      rcases processResourceRow_ok_facts hstep with ⟨hlen, mono1, hslug⟩
      refine ⟨fun s hs => mono s (mono1 s hs), ?_⟩
      intro r hr
      rcases List.mem_cons.1 hr with h2 | h2
      · subst h2
        exact ⟨hlen, fun h3 => mono _ (hslug h3)⟩
      · exact rows_facts r h2

lemma processResourceRow_noop {st : ResourcesState} {row : List String}
    (h3 : 3 ≤ row.length → slugIn st.store (row.getD 0 "") = true)
    (h1 : 1 ≤ row.length) :
    ∃ st', processResourceRow st row = Except.ok st'
      ∧ st'.store = st.store ∧ st'.created = st.created := by
  unfold processResourceRow
  split
  · rename_i hc
    have hs := h3 hc
    unfold slugIn at hs
    cases hfind : st.store.find? (fun w => w.slug == row.getD 0 "") with
    | none => rw [hfind] at hs; cases hs
    | some w =>
      exact ⟨st, rfl, rfl, rfl⟩
  · exact ⟨_, rfl, rfl, rfl⟩

lemma resourceRowLoop_noop :
    ∀ (rows : List (List String)) (st : ResourcesState),
      (∀ row ∈ rows, 1 ≤ row.length
        ∧ (3 ≤ row.length → slugIn st.store (row.getD 0 "") = true)) →
      ∃ st', resourceRowLoop st rows = Except.ok st'
        ∧ st'.store = st.store ∧ st'.created = st.created := by
  intro rows
  induction rows with
  | nil => intro st _; exact ⟨st, rfl, rfl, rfl⟩
  | cons row rows ih =>
    intro st hrows
    rcases hrows row (List.mem_cons_self row rows) with ⟨h1, h3⟩
    rcases processResourceRow_noop h3 h1 with ⟨st1, hstep, hst1, hcr1⟩
    have hrows2 : ∀ r ∈ rows, 1 ≤ r.length
        ∧ (3 ≤ r.length → slugIn st1.store (r.getD 0 "") = true) := by
      intro r hr
      rcases hrows r (List.mem_cons_of_mem row hr) with ⟨ha, hb⟩
      refine ⟨ha, fun hcc => ?_⟩
      rw [hst1]
      exact hb hcc
    rcases ih st1 hrows2 with ⟨st2, hloop, hst2, hcr2⟩
    refine ⟨st2, ?_, by rw [hst2, hst1], by rw [hcr2, hcr1]⟩
    simp only [resourceRowLoop]
    rw [hstep]
    exact hloop

/-- Claim C3 (amended): catalogs whose records are created through
get-or-create on a natural key behave as the claim says - a second
resources run over the same rows, starting from the first run's store,
creates zero records and leaves the store unchanged (first conjunct);
but the anomaly catalog's rule-set and rule rows are inserted
unconditionally, so a second run duplicates them (second conjunct,
evaluated on the concrete anomaly file: one rule set and one rule after
the first run, two of each after the second). -/
theorem reference_loader_rerun_behavior :
    (∀ (store : List WebResource) (rows : List (List String))
        (st1 : ResourcesState),
      create_resources store rows = Except.ok st1 →
      ∃ st2, create_resources st1.store rows = Except.ok st2
        ∧ st2.store = st1.store ∧ st2.created = [])
    ∧ anomaliesTwice = Except.ok (2, 2) := by
  constructor
  · intro store rows st1 h
    unfold create_resources at h ⊢
    rcases resourceRowLoop_ok_facts rows ⟨store, [], []⟩ st1 h with ⟨mono, facts⟩
    rcases resourceRowLoop_noop rows ⟨st1.store, [], []⟩ facts with
      ⟨st2, hloop, hst, hcr⟩
    exact ⟨st2, hloop, hst, hcr⟩
  · decide

/-- Witness for the amended claim C3: one well-formed resource row,
loaded once and then re-run on the resulting store. -/
theorem reference_loader_rerun_behavior_witness :
    ∃ st2, create_resources
        (ResourcesState.mk [⟨"gpcrdb", "GPCRdb", "url-gpcrdb"⟩] ["gpcrdb"] []).store
        [["gpcrdb", "GPCRdb", "url-gpcrdb"]] = Except.ok st2
      ∧ st2.store = (ResourcesState.mk [⟨"gpcrdb", "GPCRdb", "url-gpcrdb"⟩]
          ["gpcrdb"] []).store
      ∧ st2.created = [] :=
  reference_loader_rerun_behavior.1 [] [["gpcrdb", "GPCRdb", "url-gpcrdb"]]
    ⟨[⟨"gpcrdb", "GPCRdb", "url-gpcrdb"⟩], ["gpcrdb"], []⟩ (by decide)

lemma setDocHtmlFirst_facts (f : DocFile) :
    ∀ store : List Documentation, store.any (docKeyMatch f) = true →
      ((setDocHtmlFirst (docKeyMatch f) f.htmlContent store).map
          (fun d => (d.title, d.description, d.image))
        = store.map (fun d => (d.title, d.description, d.image)))
      ∧ (∃ d ∈ setDocHtmlFirst (docKeyMatch f) f.htmlContent store,
          docKeyMatch f d = true ∧ d.html = f.htmlContent)
      ∧ (∀ d ∈ setDocHtmlFirst (docKeyMatch f) f.htmlContent store,
          d ∈ store ∨ d.html = f.htmlContent) := by
  intro store
  induction store with
  | nil => intro h; cases h
  | cons d ds ih =>
    intro h
    by_cases hd : docKeyMatch f d = true
    · have hrw : setDocHtmlFirst (docKeyMatch f) f.htmlContent (d :: ds)
          = { d with html := f.htmlContent } :: ds := by
        unfold setDocHtmlFirst
        rw [if_pos hd]
      rw [hrw]
      refine ⟨by simp, ⟨{ d with html := f.htmlContent },
        List.mem_cons_self _ _, hd, rfl⟩, ?_⟩
      intro x hx
      rcases List.mem_cons.1 hx with h2 | h2
      · subst h2; exact Or.inr rfl
      · exact Or.inl (List.mem_cons_of_mem _ h2)
    · have hrw : setDocHtmlFirst (docKeyMatch f) f.htmlContent (d :: ds)
          = d :: setDocHtmlFirst (docKeyMatch f) f.htmlContent ds := by
        simp only [setDocHtmlFirst]
        rw [if_neg hd]
      have hds : ds.any (docKeyMatch f) = true := by
        rcases List.any_eq_true.1 h with ⟨x, hx, hpx⟩
        rcases List.mem_cons.1 hx with h2 | h2
        · subst h2; exact absurd hpx hd
        · exact List.any_eq_true.2 ⟨x, h2, hpx⟩
      rcases ih hds with ⟨k1, ⟨x, hx, hkx, hhx⟩, k3⟩
      rw [hrw]
      refine ⟨by simp [k1], ⟨x, List.mem_cons_of_mem _ hx, hkx, hhx⟩, ?_⟩
      intro y hy
      rcases List.mem_cons.1 hy with h2 | h2
      · subst h2; exact Or.inl (List.mem_cons_self _ _)
      · rcases k3 y h2 with h4 | h4
        · exact Or.inl (List.mem_cons_of_mem _ h4)
        · exact Or.inr h4

lemma setPageHtmlFirst_facts (g : PageFile) :
    ∀ store : List PageRecord, store.any (fun d => d.title == g.title) = true →
      ((setPageHtmlFirst g.title g.htmlContent store).map (fun d => d.title)
        = store.map (fun d => d.title))
      ∧ (∃ d ∈ setPageHtmlFirst g.title g.htmlContent store,
          d.title = g.title ∧ d.html = g.htmlContent)
      ∧ (∀ d ∈ setPageHtmlFirst g.title g.htmlContent store,
          d ∈ store ∨ d.html = g.htmlContent) := by
  intro store
  induction store with
  | nil => intro h; cases h
  | cons d ds ih =>
    intro h
    by_cases hd : (d.title == g.title) = true
    · have hrw : setPageHtmlFirst g.title g.htmlContent (d :: ds)
          = ⟨d.title, g.htmlContent⟩ :: ds := by
        unfold setPageHtmlFirst
        rw [if_pos hd]
      rw [hrw]
      refine ⟨by simp, ⟨⟨d.title, g.htmlContent⟩, List.mem_cons_self _ _,
        eq_of_beq hd, rfl⟩, ?_⟩
      intro x hx
      rcases List.mem_cons.1 hx with h2 | h2
      · subst h2; exact Or.inr rfl
      · exact Or.inl (List.mem_cons_of_mem _ h2)
    · have hrw : setPageHtmlFirst g.title g.htmlContent (d :: ds)
          = d :: setPageHtmlFirst g.title g.htmlContent ds := by
        simp only [setPageHtmlFirst]
        rw [if_neg hd]
      have hds : ds.any (fun d => d.title == g.title) = true := by
        rcases List.any_eq_true.1 h with ⟨x, hx, hpx⟩
        rcases List.mem_cons.1 hx with h2 | h2
        · subst h2; exact absurd hpx hd
        · exact List.any_eq_true.2 ⟨x, h2, hpx⟩
      rcases ih hds with ⟨k1, ⟨x, hx, hkx, hhx⟩, k3⟩
      rw [hrw]
      refine ⟨by simp [k1], ⟨x, List.mem_cons_of_mem _ hx, hkx, hhx⟩, ?_⟩
      intro y hy
      rcases List.mem_cons.1 hy with h2 | h2
      · subst h2; exact Or.inl (List.mem_cons_self _ _)
      · rcases k3 y h2 with h4 | h4
        · exact Or.inl (List.mem_cons_of_mem _ h4)
        · exact Or.inr h4

/-- Claim C4 (amended): when a documentation or pages record's natural
key already exists, the looked-up fields (title, description, image for
documentation; title for pages) are left unchanged for every stored
record, and no new record is created - but, against the claim, the
matched record's `html` field is overwritten with the sibling html
file's content. -/
theorem preexisting_record_html_overwritten :
    (∀ (store : List Documentation) (f : DocFile),
      store.any (docKeyMatch f) = true →
      ((processDocFile store f).map (fun d => (d.title, d.description, d.image))
          = store.map (fun d => (d.title, d.description, d.image)))
      ∧ (∃ d ∈ processDocFile store f, docKeyMatch f d = true
          ∧ d.html = f.htmlContent)
      ∧ (∀ d ∈ processDocFile store f, d ∈ store ∨ d.html = f.htmlContent))
    ∧ (∀ (store : List PageRecord) (g : PageFile),
      store.any (fun d => d.title == g.title) = true →
      ((processPageFile store g).map (fun d => d.title)
          = store.map (fun d => d.title))
      ∧ (∃ d ∈ processPageFile store g, d.title = g.title
          ∧ d.html = g.htmlContent)
      ∧ (∀ d ∈ processPageFile store g, d ∈ store ∨ d.html = g.htmlContent)) := by
  constructor
  · intro store f h
    have hfacts := setDocHtmlFirst_facts f store h
    unfold processDocFile
    rw [h]
    simpa using hfacts
  · intro store g h
    have hfacts := setPageHtmlFirst_facts g store h
    unfold processPageFile
    rw [h]
    simpa using hfacts

/-- Witness for the amended claim C4: the concrete documentation store
and source file with matching metadata and differing html. -/
theorem preexisting_record_html_overwritten_witness :
    ((processDocFile exDocStore exDocFile).map
        (fun d => (d.title, d.description, d.image))
      = exDocStore.map (fun d => (d.title, d.description, d.image)))
    ∧ (∃ d ∈ processDocFile exDocStore exDocFile,
        docKeyMatch exDocFile d = true ∧ d.html = exDocFile.htmlContent)
    ∧ (∀ d ∈ processDocFile exDocStore exDocFile,
        d ∈ exDocStore ∨ d.html = exDocFile.htmlContent) :=
  preexisting_record_html_overwritten.1 exDocStore exDocFile (by decide)

end Protwis
